import Mathlib

set_option maxHeartbeats 1000000

/-!
Shallow embedding of the data_pipeline repository (NYC taxi ingestion).

The `Download` namespace embeds `src/download_data.py`
(class NYCTaxiDataDownloader): month validation, path/URL construction,
the chunked streaming GET with retries and exponential backoff writing to
a temporary `.part` path, and the atomic rename publication in
`download_month`.

The `Importer` namespace embeds `src/import_to_duckdb.py`
(class DuckDBImporter) and `src/import_to_postgres.py`
(class PostgreSQLImporter): the `import_log` ledger, the
single-transaction DuckDB load, the chunk-by-chunk COPY with per-chunk
commit for PostgreSQL, and the orchestrator loops.

The `Schema` namespace embeds
`PostgreSQLImporter._create_table_from_first_parquet`.

External effects (network attempt outcomes, injected exceptions) are made
explicit parameters so that every run of the embedded code is a pure
computation on them.
-/

namespace Download

/-- A chunk of the response body, as yielded by `resp.iter_content`.
Chunk contents are abstract; we only track which prefix of the body has
been written. -/
abbrev Chunk := Nat

/-- Local filesystem state relevant to one month's download: the content
at the canonical final path (`dest`) and at the temporary path
(`dest.suffix + ".part"`), `none` when the path does not exist.
Content is the list of body chunks written there. -/
structure FsState where
  finalContent : Option (List Chunk)
  tmpContent : Option (List Chunk)
deriving Repr, DecidableEq

/-- Outcome of one GET attempt inside `_download_with_retries`:
- `ok`: the stream delivered the whole body;
- `interrupted k`: a `RequestException` (timeout, reset, non-404 HTTP
  error re-raised) after `k` chunks were written to the temp path;
- `http404`: `raise_for_status` yields a 404 (`return False`, no retry);
- `unexpected k`: a non-`RequestException` exception after `k` chunks
  (the final `except Exception` guard: `return False`, no retry). -/
inductive AttemptOutcome where
  | ok : AttemptOutcome
  | interrupted : Nat → AttemptOutcome
  | http404 : AttemptOutcome
  | unexpected : Nat → AttemptOutcome
deriving Repr, DecidableEq

/-- Result of one GET attempt: the intermediate filesystem states it
produced (in order), the state it leaves behind, and
`some true` = success / `some false` = give up immediately /
`none` = `RequestException`, retryable. -/
structure AttemptRes where
  trace : List FsState
  state : FsState
  res : Option Bool
deriving Repr, DecidableEq

/-- States visited while an attempt deletes a stale temp file
(line `if dest_tmp.exists(): dest_tmp.unlink()`) and then writes the
first `k` chunks of `body` to the temp path, one `f.write(chunk)` at a
time. Only the temporary path is ever written. -/
def writeStates (body : List Chunk) (k : Nat) (s : FsState) : List FsState :=
  { s with tmpContent := none } ::
    (List.range (k + 1)).map (fun i => { s with tmpContent := some (body.take i) })

/-- One iteration of the retry loop body in `_download_with_retries`:
GET, `raise_for_status`, stream chunks to the temp path, reject an empty
(0-byte) body as a `RequestException`, and delete the partial temp file
in every `except` branch. -/
def runAttempt (body : List Chunk) (o : AttemptOutcome) (s : FsState) : AttemptRes :=
  match o with
  | .http404 => ⟨[s], s, some false⟩
  | .interrupted k =>
      ⟨writeStates body (min k body.length) s ++ [{ s with tmpContent := none }],
        { s with tmpContent := none }, none⟩
  | .unexpected k =>
      ⟨writeStates body (min k body.length) s ++ [{ s with tmpContent := none }],
        { s with tmpContent := none }, some false⟩
  | .ok =>
      if body.isEmpty then
        ⟨writeStates body 0 s ++ [{ s with tmpContent := none }],
          { s with tmpContent := none }, none⟩
      else
        ⟨writeStates body body.length s, { s with tmpContent := some body }, some true⟩

/-- Result of `_download_with_retries`: all intermediate filesystem
states, the final state, the returned boolean, the backoff sleeps
performed (`time.sleep(backoff)` arguments, in seconds), and how many
GET attempts were made. -/
structure RetryRes where
  trace : List FsState
  state : FsState
  success : Bool
  sleeps : List ℚ
  attemptsUsed : Nat
deriving Repr, DecidableEq

/-- The loop `for attempt in range(1, self.MAX_RETRIES + 1)` of
`_download_with_retries`. The remaining attempts' outcomes are the list
argument; `attempt` is the 1-based counter. On a `RequestException` with
attempts remaining it sleeps `BACKOFF_BASE ** (attempt - 1)` and
continues; on the last attempt it returns `False` without sleeping. -/
def retryLoop (base : ℚ) (body : List Chunk) :
    List AttemptOutcome → Nat → FsState → RetryRes
  | [], _, s => ⟨[], s, false, [], 0⟩
  | o :: rest, attempt, s =>
    let a := runAttempt body o s
    match a.res with
    | some b => ⟨a.trace, a.state, b, [], 1⟩
    | none =>
      if rest = [] then ⟨a.trace, a.state, false, [], 1⟩
      else
        let r := retryLoop base body rest (attempt + 1) a.state
        ⟨a.trace ++ r.trace, r.state, r.success,
          base ^ (attempt - 1) :: r.sleeps, r.attemptsUsed + 1⟩

/-- `NYCTaxiDataDownloader._download_with_retries(url, dest_tmp)`:
runs up to `maxRetries` GET attempts whose outcomes come from
`schedule`. -/
def download_with_retries (base : ℚ) (maxRetries : Nat) (body : List Chunk)
    (schedule : List AttemptOutcome) (s : FsState) : RetryRes :=
  retryLoop base body (schedule.take maxRetries) 1 s

/-- `NYCTaxiDataDownloader._validate_month`: raises `ValueError` unless
`1 <= month <= 12`. -/
def validate_month (month : Int) : Except String Unit :=
  if 1 ≤ month ∧ month ≤ 12 then .ok ()
  else .error ("month must be in 1..12, got " ++ toString month)

/-- Two-digit month formatting, `f-string` `{month:02d}`. -/
def month_str (m : Int) : String :=
  if m < 10 then "0" ++ toString m else toString m

/-- `NYCTaxiDataDownloader.get_file_path`: validates the month, then
builds the canonical local file name. -/
def get_file_path (year month : Int) : Except String String :=
  (validate_month month).map
    (fun _ => "yellow_tripdata_" ++ toString year ++ "-" ++ month_str month ++ ".parquet")

/-- `NYCTaxiDataDownloader._build_url`: validates the month, then builds
the remote URL. -/
def build_url (year month : Int) : Except String String :=
  (validate_month month).map
    (fun _ =>
      "https://d37ci6vzurychx.cloudfront.net/trip-data/yellow_tripdata_"
        ++ toString year ++ "-" ++ month_str month ++ ".parquet")

/-- Result of `download_month`: the returned value (or the propagated
`ValueError`), the filesystem states visited, the final filesystem
state, the number of network (GET) calls, and the backoff sleeps. -/
structure MonthRes where
  result : Except String Bool
  trace : List FsState
  state : FsState
  netCalls : Nat
  sleeps : List ℚ
deriving Repr

/-- `NYCTaxiDataDownloader.download_month(month)`:
1. `get_file_path(month)` (validates the month, may raise);
2. early `return True` if the final path already exists;
3. `_download_with_retries` to the temporary path;
4. on failure, delete a leftover temp file and `return False`;
5. on success, `tmp_dest.replace(dest)` — the atomic rename — and
   `return True`. -/
def download_month (month : Int) (base : ℚ) (maxRetries : Nat) (body : List Chunk)
    (schedule : List AttemptOutcome) (s : FsState) : MonthRes :=
  match validate_month month with
  | .error e => ⟨.error e, [], s, 0, []⟩
  | .ok _ =>
    if s.finalContent.isSome then ⟨.ok true, [s], s, 0, []⟩
    else
      let r := download_with_retries base maxRetries body schedule s
      if r.success then
        let s2 : FsState := ⟨r.state.tmpContent, none⟩
        ⟨.ok true, r.trace ++ [s2], s2, r.attemptsUsed, r.sleeps⟩
      else
        let s2 : FsState := ⟨r.state.finalContent, none⟩
        ⟨.ok false, r.trace ++ [s2], s2, r.attemptsUsed, r.sleeps⟩

end Download

namespace Importer

/-- A parquet source file: its base name (`file_path.name`) and its total
row count (`parquet_file.metadata.num_rows`). -/
structure ParquetFile where
  name : String
  rows : Nat
deriving Repr, DecidableEq

/-- One row of the `import_log` ledger table:
`(file_name, rows_imported)`. `import_date` is omitted: no claim reads
it. -/
structure LogEntry where
  file_name : String
  rows_imported : Int
deriving Repr, DecidableEq

/-- Committed DuckDB database state: the row count of
`yellow_taxi_trips` and the rows of `import_log`. -/
structure DuckState where
  yellow_taxi_trips : Nat
  import_log : List LogEntry
deriving Repr, DecidableEq

/-- `DuckDBImporter.is_file_imported(filename)`:
`SELECT 1 FROM import_log WHERE file_name = ? LIMIT 1` is not `None`. -/
def DuckState.is_file_imported (st : DuckState) (filename : String) : Bool :=
  st.import_log.any (fun e => e.file_name == filename)

/-- An open DuckDB transaction: the committed state (restored by
`ROLLBACK`) and the pending state (made durable by `COMMIT`). -/
structure DuckTxn where
  committed : DuckState
  pending : DuckState
deriving Repr, DecidableEq

/-- The statements executed inside the `BEGIN`/`COMMIT` block of
`DuckDBImporter.import_parquet`, as failure-injection points: any of
them may raise, sending control to the `except` block that issues
`ROLLBACK`. -/
inductive DuckStep where
  | countBefore : DuckStep
  | insertData : DuckStep
  | countAfter : DuckStep
  | insertLog : DuckStep
  | commitStep : DuckStep
deriving Repr, DecidableEq

/-- `DuckDBImporter.import_parquet(file_path)`: skip if already in
`import_log`; otherwise `BEGIN`, count rows, `INSERT ... BY NAME` the
whole file, count rows again, insert the `import_log` row with
`after - before`, `COMMIT`. Any exception (injected via `failAt`)
triggers `ROLLBACK` and `return False`. Returns the terminal committed
state and the returned boolean. -/
def duck_import_parquet (st : DuckState) (f : ParquetFile)
    (failAt : Option DuckStep) : DuckState × Bool :=
  if st.is_file_imported f.name then (st, false)
  else
    let t0 : DuckTxn := ⟨st, st⟩
    if failAt = some .countBefore then (t0.committed, false)
    else
      let before := t0.pending.yellow_taxi_trips
      if failAt = some .insertData then (t0.committed, false)
      else
        let t1 : DuckTxn :=
          { t0 with pending :=
              { t0.pending with yellow_taxi_trips := t0.pending.yellow_taxi_trips + f.rows } }
        if failAt = some .countAfter then (t1.committed, false)
        else
          let after := t1.pending.yellow_taxi_trips
          let rows_imported : Int := (after : Int) - (before : Int)
          if failAt = some .insertLog then (t1.committed, false)
          else
            let t2 : DuckTxn :=
              { t1 with pending :=
                  { t1.pending with import_log :=
                      t1.pending.import_log ++ [⟨f.name, rows_imported⟩] } }
            if failAt = some .commitStep then (t2.committed, false)
            else (t2.pending, true)

/-- `DuckDBImporter.import_all_parquet_files(data_dir)`: the loop
`for f in sorted(data_dir.glob(...)): if self.import_parquet(f): imported += 1`.
`plan` injects per-file failures. The third component instruments the
run with the names, in order, that were passed to `import_parquet`. -/
def duck_import_all (st : DuckState) (files : List ParquetFile)
    (plan : String → Option DuckStep) : DuckState × Nat × List String :=
  match files with
  | [] => (st, 0, [])
  | f :: rest =>
    let r1 := duck_import_parquet st f (plan f.name)
    let r2 := duck_import_all r1.1 rest plan
    (r2.1, (if r1.2 then 1 else 0) + r2.2.1, f.name :: r2.2.2)

/-- Committed PostgreSQL database state: the row count of
`yellow_taxi_trips` and the rows of `import_log`. -/
structure PGState where
  yellow_taxi_trips : Nat
  import_log : List LogEntry
deriving Repr, DecidableEq

/-- `PostgreSQLImporter.is_file_imported(file_name)`:
`db.query(ImportLog).filter(...).count() > 0`. -/
def PGState.is_file_imported (st : PGState) (file_name : String) : Bool :=
  st.import_log.any (fun e => e.file_name == file_name)

/-- The batch sizes yielded by
`parquet_file.iter_batches(batch_size=chunk_size)` for a file of `rows`
rows: full chunks of `chunk_size` rows, then the remainder. -/
def iter_batches (chunk_size : Nat) (rows : Nat) : List Nat :=
  if hpos : chunk_size = 0 ∨ rows = 0 then []
  else min chunk_size rows :: iter_batches chunk_size (rows - chunk_size)
termination_by rows
decreasing_by
  push_neg at hpos
  omega

/-- The chunk loop of `PostgreSQLImporter.import_parquet`: each chunk is
loaded by `_bulk_insert_with_copy`, which opens its own psycopg2
connection and calls `conn.commit()` — every successful chunk is
durably committed on its own. `failAt = some k` makes the COPY of the
k-th remaining chunk raise (before its commit); the exception leaves the
earlier chunks committed. Returns the state and whether all chunks
succeeded. -/
def pg_run_chunks : PGState → List Nat → Option Nat → PGState × Bool
  | st, [], _ => (st, true)
  | st, _ :: _, some 0 => (st, false)
  | st, c :: rest, some (k + 1) =>
    pg_run_chunks { st with yellow_taxi_trips := st.yellow_taxi_trips + c } rest (some k)
  | st, c :: rest, none =>
    pg_run_chunks { st with yellow_taxi_trips := st.yellow_taxi_trips + c } rest none

/-- `PostgreSQLImporter.import_parquet(file_path, chunk_size)`:
skip (`return 0`) if already in `import_log`; otherwise, inside one
`try`: count rows before, COPY each chunk (each committed
independently), count rows after, write the `import_log` entry with
`count_after - count_before`, and return that delta. Any exception is
caught and mapped to `return 0`, with whatever chunks already committed
left in place. -/
def pg_import_parquet (st : PGState) (f : ParquetFile) (chunk_size : Nat)
    (failAt : Option Nat) : PGState × Int :=
  if st.is_file_imported f.name then (st, 0)
  else
    let count_before : Int := st.yellow_taxi_trips
    let r := pg_run_chunks st (iter_batches chunk_size f.rows) failAt
    if r.2 then
      let count_after : Int := r.1.yellow_taxi_trips
      let rows_imported : Int := count_after - count_before
      ({ r.1 with import_log := r.1.import_log ++ [⟨f.name, rows_imported⟩] }, rows_imported)
    else (r.1, 0)

/-- `PostgreSQLImporter.import_all_parquet_files(raw_dir)`: the loop
`for file_path in sorted(raw_dir.glob(...)): total_rows += self.import_parquet(file_path)`.
(The preceding `_create_table_from_first_parquet` call touches only the
table schema, modelled in the `Schema` namespace; it does not change
`yellow_taxi_trips` row counts or `import_log`.) The third component
instruments the run with the names, in order, passed to
`import_parquet`. -/
def pg_import_all (st : PGState) (files : List ParquetFile) (chunk_size : Nat)
    (plan : String → Option Nat) : PGState × Int × List String :=
  match files with
  | [] => (st, 0, [])
  | f :: rest =>
    let r1 := pg_import_parquet st f chunk_size (plan f.name)
    let r2 := pg_import_all r1.1 rest chunk_size plan
    (r2.1, r1.2 + r2.2.1, f.name :: r2.2.2)

end Importer

namespace Schema

/-- The pandas dtypes that occur in the NYC taxi parquet files. -/
inductive Dtype where
  | int64 : Dtype
  | float64 : Dtype
  | datetime64 : Dtype
  | objectStr : Dtype
deriving Repr, DecidableEq

/-- PostgreSQL column types produced by `DataFrame.to_sql`. -/
inductive PgType where
  | bigint : PgType
  | doublePrecision : PgType
  | timestamp : PgType
  | text : PgType
deriving Repr, DecidableEq

/-- The fixed pandas→PostgreSQL dtype mapping applied by `to_sql`. -/
def mapDtype : Dtype → PgType
  | .int64 => .bigint
  | .float64 => .doublePrecision
  | .datetime64 => .timestamp
  | .objectStr => .text

/-- A parquet file as `pd.read_parquet` sees it: its column schema
(names and dtypes) and its row data (cell values abstracted as
strings). -/
structure ParquetData where
  columns : List (String × Dtype)
  rows : List (List String)
deriving Repr, DecidableEq

/-- A pandas DataFrame: columns plus row data. -/
structure DataFrame where
  columns : List (String × Dtype)
  rows : List (List String)
deriving Repr, DecidableEq

/-- `pd.read_parquet(parquet_file, engine=pyarrow)`: loads the whole
file, schema and data, into a DataFrame. -/
def read_parquet (p : ParquetData) : DataFrame :=
  ⟨p.columns, p.rows⟩

/-- `DataFrame.head(n)`: same columns, first `n` rows. -/
def DataFrame.head (df : DataFrame) (n : Nat) : DataFrame :=
  ⟨df.columns, df.rows.take n⟩

/-- The destination table definition generated by `to_sql`. -/
structure TableDef where
  tableName : String
  cols : List (String × PgType)
  primaryKey : Option String
deriving Repr, DecidableEq

/-- `df.to_sql('yellow_taxi_trips', engine, if_exists='fail',
index=True, index_label='index')`: creates the table with an added
`index` column as primary key and one column per DataFrame column via
the fixed dtype mapping, and inserts the DataFrame's rows. Returns the
created table definition and the inserted rows. -/
def to_sql (df : DataFrame) : TableDef × List (List String) :=
  (⟨"yellow_taxi_trips",
      ("index", .bigint) :: df.columns.map (fun c => (c.1, mapDtype c.2)),
      some "index"⟩,
    df.rows)

/-- `PostgreSQLImporter._create_table_from_first_parquet(parquet_file)`:
no-op (`return`, i.e. `none`) if `yellow_taxi_trips` is already among
the existing tables; otherwise `df_sample = pd.read_parquet(...)` then
`df_sample.head(0).to_sql(...)`. Returns the created table definition
and the rows inserted at creation time. -/
def create_table_from_first_parquet (existingTables : List String)
    (p : ParquetData) : Option (TableDef × List (List String)) :=
  if "yellow_taxi_trips" ∈ existingTables then none
  else
    let df_sample := read_parquet p
    some (to_sql (df_sample.head 0))

end Schema

namespace Download

/-- Every state produced while writing chunks has the same canonical
final path content as the starting state: writes go only to the
temporary path. -/
theorem writeStates_finalContent (body : List Chunk) (k : Nat) (s : FsState) :
    ∀ st ∈ writeStates body k s, st.finalContent = s.finalContent := by
  intro st hst
  simp only [writeStates, List.mem_cons, List.mem_map, List.mem_range] at hst
  rcases hst with h | ⟨i, _, h⟩ <;> subst h <;> rfl

/-- One GET attempt never changes the canonical final path content. -/
theorem runAttempt_finalContent (body : List Chunk) (o : AttemptOutcome) (s : FsState) :
    (∀ st ∈ (runAttempt body o s).trace, st.finalContent = s.finalContent) ∧
    (runAttempt body o s).state.finalContent = s.finalContent := by
  cases o with
  | http404 =>
    refine ⟨?_, rfl⟩
    intro st hst
    simp [runAttempt] at hst
    rw [hst]
  | interrupted k =>
    refine ⟨?_, rfl⟩
    intro st hst
    simp only [runAttempt, List.mem_append, List.mem_singleton] at hst
    rcases hst with h | h
    · exact writeStates_finalContent body _ s st h
    · rw [h]
  | unexpected k =>
    refine ⟨?_, rfl⟩
    intro st hst
    simp only [runAttempt, List.mem_append, List.mem_singleton] at hst
    rcases hst with h | h
    · exact writeStates_finalContent body _ s st h
    · rw [h]
  | ok =>
    by_cases hb : body.isEmpty
    · refine ⟨?_, by simp [runAttempt, hb]⟩
      intro st hst
      simp only [runAttempt, hb, if_true, List.mem_append, List.mem_singleton] at hst
      rcases hst with h | h
      · exact writeStates_finalContent body _ s st h
      · rw [h]
    · refine ⟨?_, by simp [runAttempt, hb]⟩
      intro st hst
      simp only [runAttempt, hb, if_false, Bool.false_eq_true] at hst
      exact writeStates_finalContent body _ s st hst

/-- A successful GET attempt leaves the full body at the temporary
path. -/
theorem runAttempt_success_tmp (body : List Chunk) (o : AttemptOutcome) (s : FsState)
    (h : (runAttempt body o s).res = some true) :
    (runAttempt body o s).state.tmpContent = some body := by
  cases o with
  | http404 => simp [runAttempt] at h
  | interrupted k => simp [runAttempt] at h
  | unexpected k => simp [runAttempt] at h
  | ok =>
    by_cases hb : body.isEmpty
    · simp [runAttempt, hb] at h
    · simp [runAttempt, hb]

/-- The retry loop never changes the canonical final path content: all
its writes go to the temporary path. -/
theorem retryLoop_finalContent (base : ℚ) (body : List Chunk) :
    ∀ (sched : List AttemptOutcome) (attempt : Nat) (s : FsState),
    ((retryLoop base body sched attempt s).state.finalContent = s.finalContent) ∧
    (∀ st ∈ (retryLoop base body sched attempt s).trace,
      st.finalContent = s.finalContent) := by
  intro sched
  induction sched with
  | nil => intro attempt s; simp [retryLoop]
  | cons o rest ih =>
    intro attempt s
    simp only [retryLoop]
    cases ha : (runAttempt body o s).res with
    | some b =>
      exact ⟨(runAttempt_finalContent body o s).2,
        (runAttempt_finalContent body o s).1⟩
    | none =>
      by_cases hr : rest = []
      · simp only [hr, if_true]
        exact ⟨(runAttempt_finalContent body o s).2,
          (runAttempt_finalContent body o s).1⟩
      · simp only [hr, if_false]
        constructor
        · rw [(ih (attempt + 1) (runAttempt body o s).state).1]
          exact (runAttempt_finalContent body o s).2
        · intro st hst
          simp only [List.mem_append] at hst
          rcases hst with h | h
          · exact (runAttempt_finalContent body o s).1 st h
          · rw [(ih (attempt + 1) (runAttempt body o s).state).2 st h]
            exact (runAttempt_finalContent body o s).2

/-- One-step unfolding of the retry loop: the attempt returned a value
(success or immediate give-up). -/
theorem retryLoop_cons_of_res (base : ℚ) (body : List Chunk) (o : AttemptOutcome)
    (rest : List AttemptOutcome) (attempt : Nat) (s : FsState) (b : Bool)
    (ha : (runAttempt body o s).res = some b) :
    retryLoop base body (o :: rest) attempt s =
      ⟨(runAttempt body o s).trace, (runAttempt body o s).state, b, [], 1⟩ := by
  conv_lhs => rw [retryLoop]
  rw [ha]

/-- One-step unfolding of the retry loop: `RequestException` on the last
attempt — give up without sleeping. -/
theorem retryLoop_cons_last (base : ℚ) (body : List Chunk) (o : AttemptOutcome)
    (attempt : Nat) (s : FsState)
    (ha : (runAttempt body o s).res = none) :
    retryLoop base body [o] attempt s =
      ⟨(runAttempt body o s).trace, (runAttempt body o s).state, false, [], 1⟩ := by
  conv_lhs => rw [retryLoop]
  rw [ha]
  simp

/-- One-step unfolding of the retry loop: `RequestException` with
attempts remaining — sleep `base ^ (attempt - 1)` and retry. -/
theorem retryLoop_cons_cont (base : ℚ) (body : List Chunk) (o : AttemptOutcome)
    (rest : List AttemptOutcome) (attempt : Nat) (s : FsState)
    (ha : (runAttempt body o s).res = none) (hne : rest ≠ []) :
    retryLoop base body (o :: rest) attempt s =
      ⟨(runAttempt body o s).trace
          ++ (retryLoop base body rest (attempt + 1) (runAttempt body o s).state).trace,
        (retryLoop base body rest (attempt + 1) (runAttempt body o s).state).state,
        (retryLoop base body rest (attempt + 1) (runAttempt body o s).state).success,
        base ^ (attempt - 1)
          :: (retryLoop base body rest (attempt + 1) (runAttempt body o s).state).sleeps,
        (retryLoop base body rest (attempt + 1) (runAttempt body o s).state).attemptsUsed
          + 1⟩ := by
  conv_lhs => rw [retryLoop]
  rw [ha]
  simp [hne]

/-- If the retry loop reports success, the full body sits at the
temporary path, ready to be renamed. -/
theorem retryLoop_success_tmp (base : ℚ) (body : List Chunk) :
    ∀ (sched : List AttemptOutcome) (attempt : Nat) (s : FsState),
    (retryLoop base body sched attempt s).success = true →
    (retryLoop base body sched attempt s).state.tmpContent = some body := by
  intro sched
  induction sched with
  | nil => intro attempt s h; simp [retryLoop] at h
  | cons o rest ih =>
    intro attempt s
    cases ha : (runAttempt body o s).res with
    | some b =>
      rw [retryLoop_cons_of_res base body o rest attempt s b ha]
      intro hb
      have hb2 : b = true := hb
      rw [hb2] at ha
      exact runAttempt_success_tmp body o s ha
    | none =>
      by_cases hr : rest = []
      · subst hr
        rw [retryLoop_cons_last base body o attempt s ha]
        intro hb
        exact absurd hb (by simp)
      · rw [retryLoop_cons_cont base body o rest attempt s ha hr]
        exact ih (attempt + 1) (runAttempt body o s).state

/-- Components of the retry loop on a schedule of `n + 1` straight
`RequestException`s: failure is reported after all attempts, the
temporary file is deleted, and a backoff of `base ^ (attempt - 1)`
seconds is slept after every failed attempt except the last. -/
theorem retryLoop_replicate (base : ℚ) (body : List Chunk) (k : Nat) :
    ∀ (n attempt : Nat) (s : FsState), 1 ≤ attempt →
    (retryLoop base body (List.replicate (n + 1) (.interrupted k)) attempt s).success
        = false ∧
    (retryLoop base body (List.replicate (n + 1) (.interrupted k)) attempt s).attemptsUsed
        = n + 1 ∧
    (retryLoop base body (List.replicate (n + 1) (.interrupted k)) attempt s).state
        = { s with tmpContent := none } ∧
    (retryLoop base body (List.replicate (n + 1) (.interrupted k)) attempt s).sleeps
        = (List.range n).map (fun i => base ^ (attempt - 1 + i)) := by
  intro n
  induction n with
  | zero =>
    intro attempt s _
    have hres : (runAttempt body (.interrupted k) s).res = none := rfl
    rw [show List.replicate 1 (AttemptOutcome.interrupted k)
          = [AttemptOutcome.interrupted k] from rfl,
      retryLoop_cons_last base body (.interrupted k) attempt s hres]
    exact ⟨rfl, rfl, rfl, rfl⟩
  | succ m ih =>
    intro attempt s hat
    have hne : List.replicate (m + 1) (AttemptOutcome.interrupted k) ≠ [] := by
      simp
    have hres : (runAttempt body (.interrupted k) s).res = none := rfl
    have hstate : (runAttempt body (.interrupted k) s).state
        = { s with tmpContent := none } := rfl
    rw [List.replicate_succ,
      retryLoop_cons_cont base body (.interrupted k)
        (List.replicate (m + 1) (AttemptOutcome.interrupted k)) attempt s hres hne]
    have h2 := ih (attempt + 1) (runAttempt body (.interrupted k) s).state (by omega)
    refine ⟨h2.1, by rw [h2.2.1], by rw [h2.2.2.1, hstate], ?_⟩
    show base ^ (attempt - 1) :: _ = _
    have hsucc : List.map (fun i => base ^ (attempt - 1 + i)) (List.range (m + 1))
        = base ^ (attempt - 1)
          :: List.map (fun i => base ^ (attempt + 1 - 1 + i)) (List.range m) := by
      rw [List.range_succ_eq_map, List.map_cons, List.map_map]
      refine List.cons_eq_cons.mpr ⟨by simp, ?_⟩
      apply List.map_congr_left
      intro i _
      simp only [Function.comp]
      congr 1
      omega
    rw [h2.2.2.2, hsucc]

end Download

namespace Importer

/-- A ledger list extended with an entry for `n` reports `n`
as already loaded. -/
theorem any_append_self (l : List LogEntry) (n : String) (r : Int) :
    (l ++ [LogEntry.mk n r]).any (fun e => e.file_name == n) = true := by
  simp [List.any_append]

/-- `iter_batches` batch sizes sum to the file's row count. -/
theorem iter_batches_sum (cs : Nat) (hcs : cs ≠ 0) :
    ∀ rows, (iter_batches cs rows).sum = rows := by
  intro rows
  induction rows using Nat.strong_induction_on with
  | _ rows ih =>
    rw [iter_batches]
    split
    · rename_i h
      rcases h with h | h
      · exact absurd h hcs
      · simp [h]
    · rename_i h
      push_neg at h
      rw [List.sum_cons, ih (rows - cs) (by omega)]
      omega

/-- With no injected failure, the chunk loop commits every chunk. -/
theorem pg_run_chunks_none : ∀ (chunks : List Nat) (st : PGState),
    pg_run_chunks st chunks none =
      ({ st with yellow_taxi_trips := st.yellow_taxi_trips + chunks.sum }, true) := by
  intro chunks
  induction chunks with
  | nil => intro st; simp [pg_run_chunks]
  | cons c rest ih =>
    intro st
    rw [pg_run_chunks, ih]
    simp [Nat.add_assoc]

/-- When the COPY of chunk `k` raises, the first `k` chunks stay
committed and the loop reports failure. -/
theorem pg_run_chunks_fail : ∀ (chunks : List Nat) (k : Nat) (st : PGState),
    k < chunks.length →
    pg_run_chunks st chunks (some k) =
      ({ st with yellow_taxi_trips := st.yellow_taxi_trips + (chunks.take k).sum }, false) := by
  intro chunks
  induction chunks with
  | nil => intro k st h; simp at h
  | cons c rest ih =>
    intro k st h
    cases k with
    | zero => simp [pg_run_chunks]
    | succ k =>
      rw [pg_run_chunks, ih k _ (by simpa using h)]
      simp [Nat.add_assoc]

/-- Casting helper: the count delta of a successful insert of `r` rows
is `r`. -/
theorem count_delta (b r : Nat) : ((b + r : Nat) : Int) - (b : Int) = (r : Int) := by
  push_cast
  ring

/-- `duck_import_parquet` on a fresh file with no failure: one
transaction inserting the rows and the ledger entry with the count
delta. -/
theorem duck_import_parquet_success (st : DuckState) (f : ParquetFile)
    (h : st.is_file_imported f.name = false) :
    duck_import_parquet st f none =
      (⟨st.yellow_taxi_trips + f.rows,
        st.import_log ++ [⟨f.name, (f.rows : Int)⟩]⟩, true) := by
  simp [duck_import_parquet, h, count_delta]

/-- `duck_import_parquet` on a fresh file with any injected failure:
`ROLLBACK` restores the pre-call state and returns `False`. -/
theorem duck_import_parquet_rollback (st : DuckState) (f : ParquetFile)
    (step : DuckStep) (h : st.is_file_imported f.name = false) :
    duck_import_parquet st f (some step) = (st, false) := by
  cases step <;> simp [duck_import_parquet, h]

/-- `duck_import_parquet` skips a file already in the ledger. -/
theorem duck_import_parquet_skip (st : DuckState) (f : ParquetFile)
    (fp : Option DuckStep) (h : st.is_file_imported f.name = true) :
    duck_import_parquet st f fp = (st, false) := by
  simp [duck_import_parquet, h]

/-- `pg_import_parquet` on a fresh file with no failure: all chunks
committed, ledger entry written with the count delta, delta returned. -/
theorem pg_import_parquet_success (st : PGState) (f : ParquetFile) (cs : Nat)
    (h : st.is_file_imported f.name = false) (hcs : cs ≠ 0) :
    pg_import_parquet st f cs none =
      (⟨st.yellow_taxi_trips + f.rows,
        st.import_log ++ [⟨f.name, (f.rows : Int)⟩]⟩, (f.rows : Int)) := by
  simp [pg_import_parquet, h, pg_run_chunks_none, iter_batches_sum cs hcs, count_delta]

/-- `pg_import_parquet` on a fresh file whose chunk `k` fails: the first
`k` chunks remain committed, no ledger entry, returns 0. -/
theorem pg_import_parquet_fail (st : PGState) (f : ParquetFile) (cs k : Nat)
    (h : st.is_file_imported f.name = false)
    (hk : k < (iter_batches cs f.rows).length) :
    pg_import_parquet st f cs (some k) =
      (⟨st.yellow_taxi_trips + ((iter_batches cs f.rows).take k).sum,
        st.import_log⟩, 0) := by
  simp [pg_import_parquet, h, pg_run_chunks_fail _ _ _ hk]

/-- `pg_import_parquet` skips a file already in the ledger. -/
theorem pg_import_parquet_skip (st : PGState) (f : ParquetFile) (cs : Nat)
    (fp : Option Nat) (h : st.is_file_imported f.name = true) :
    pg_import_parquet st f cs fp = (st, 0) := by
  simp [pg_import_parquet, h]

/-- Concrete batch list used by witnesses: a 2-row file in chunks of 1. -/
theorem iter_batches_one_two : iter_batches 1 2 = [1, 1] := by
  rw [iter_batches, iter_batches, iter_batches]
  norm_num

/-- The DuckDB orchestrator passes every candidate, in order, to the
loader, whatever failures occur. -/
theorem duck_import_all_processed : ∀ (files : List ParquetFile) (st : DuckState)
    (plan : String → Option DuckStep),
    (duck_import_all st files plan).2.2 = files.map (fun f => f.name) := by
  intro files
  induction files with
  | nil => intro st plan; rfl
  | cons f rest ih => intro st plan; simp [duck_import_all, ih]

/-- The PostgreSQL orchestrator passes every candidate, in order, to the
loader, whatever failures occur. -/
theorem pg_import_all_processed : ∀ (files : List ParquetFile) (st : PGState)
    (cs : Nat) (plan : String → Option Nat),
    (pg_import_all st files cs plan).2.2 = files.map (fun f => f.name) := by
  intro files
  induction files with
  | nil => intro st cs plan; rfl
  | cons f rest ih => intro st cs plan; simp [pg_import_all, ih]

/-- The DuckDB orchestrator loop decomposes over a split of the
candidate list: the run over `xs ++ ys` is the run over `xs` followed by
the run over `ys` from the state `xs` left, with the imported-file count
and the processed-name log combining additively. -/
theorem duck_import_all_append : ∀ (xs ys : List ParquetFile) (st : DuckState)
    (plan : String → Option DuckStep),
    (duck_import_all st (xs ++ ys) plan).1
        = (duck_import_all (duck_import_all st xs plan).1 ys plan).1 ∧
    (duck_import_all st (xs ++ ys) plan).2.1
        = (duck_import_all st xs plan).2.1
          + (duck_import_all (duck_import_all st xs plan).1 ys plan).2.1 ∧
    (duck_import_all st (xs ++ ys) plan).2.2
        = (duck_import_all st xs plan).2.2
          ++ (duck_import_all (duck_import_all st xs plan).1 ys plan).2.2 := by
  intro xs
  induction xs with
  | nil => intro ys st plan; simp [duck_import_all]
  | cons x xs ih =>
    intro ys st plan
    simp only [List.cons_append, duck_import_all, List.append_eq]
    refine ⟨(ih ys _ plan).1, ?_, ?_⟩
    · rw [(ih ys _ plan).2.1, Nat.add_assoc]
    · rw [(ih ys _ plan).2.2]

/-- The PostgreSQL orchestrator loop decomposes over a split of the
candidate list: the run over `xs ++ ys` is the run over `xs` followed by
the run over `ys` from the state `xs` left, with the row total and the
processed-name log combining additively. -/
theorem pg_import_all_append : ∀ (xs ys : List ParquetFile) (st : PGState)
    (cs : Nat) (plan : String → Option Nat),
    (pg_import_all st (xs ++ ys) cs plan).1
        = (pg_import_all (pg_import_all st xs cs plan).1 ys cs plan).1 ∧
    (pg_import_all st (xs ++ ys) cs plan).2.1
        = (pg_import_all st xs cs plan).2.1
          + (pg_import_all (pg_import_all st xs cs plan).1 ys cs plan).2.1 ∧
    (pg_import_all st (xs ++ ys) cs plan).2.2
        = (pg_import_all st xs cs plan).2.2
          ++ (pg_import_all (pg_import_all st xs cs plan).1 ys cs plan).2.2 := by
  intro xs
  induction xs with
  | nil => intro ys st cs plan; simp [pg_import_all]
  | cons x xs ih =>
    intro ys st cs plan
    simp only [List.cons_append, pg_import_all, List.append_eq]
    refine ⟨(ih ys _ cs plan).1, ?_, ?_⟩
    · rw [(ih ys _ cs plan).2.1, Int.add_assoc]
    · rw [(ih ys _ cs plan).2.2]

end Importer

/-- C1: the claim states that on any batch failure the whole file's
inserts are rolled back (row count unchanged). False for the PostgreSQL
backend: on a 2-row file loaded in chunks of 1 from an empty table,
failing the second chunk leaves 1 row committed (the first chunk's
COPY committed on its own connection), not 0. No ledger entry is
written and 0 is returned, but the rollback part of the claim fails. -/
theorem claim_C1_counterexample :
    Importer.pg_import_parquet ⟨0, []⟩ ⟨"yellow_tripdata_2025-01.parquet", 2⟩ 1 (some 1)
      = (⟨1, []⟩, 0) ∧
    ¬ ((Importer.pg_import_parquet ⟨0, []⟩ ⟨"yellow_tripdata_2025-01.parquet", 2⟩ 1
          (some 1)).1.yellow_taxi_trips = 0) := by
  have h := Importer.pg_import_parquet_fail ⟨0, []⟩ ⟨"yellow_tripdata_2025-01.parquet", 2⟩
    1 1 rfl (by rw [Importer.iter_batches_one_two]; norm_num)
  rw [Importer.iter_batches_one_two] at h
  norm_num at h
  rw [h]
  simp

/-- C1 (amended): on a batch failure neither backend writes a Ledger
entry and both report failure; the DuckDB backend rolls back the whole
file (row count after = row count before), but the PostgreSQL backend
keeps the chunks committed before the failing one (row count after =
row count before + sum of the first k chunk sizes), because each chunk's
COPY commits on its own connection. -/
theorem claim_C1_amended (dst : Importer.DuckState) (pst : Importer.PGState)
    (f : Importer.ParquetFile) (cs k : Nat) (step : Importer.DuckStep)
    (hd : dst.is_file_imported f.name = false)
    (hp : pst.is_file_imported f.name = false)
    (hk : k < (Importer.iter_batches cs f.rows).length) :
    Importer.duck_import_parquet dst f (some step) = (dst, false) ∧
    Importer.pg_import_parquet pst f cs (some k) =
      (⟨pst.yellow_taxi_trips + ((Importer.iter_batches cs f.rows).take k).sum,
        pst.import_log⟩, 0) :=
  ⟨Importer.duck_import_parquet_rollback dst f step hd,
    Importer.pg_import_parquet_fail pst f cs k hp hk⟩

/-- Witness for C1 (amended) at a concrete input: a 2-row file in chunks
of 1 whose second chunk fails. -/
theorem claim_C1_witness :
    Importer.duck_import_parquet ⟨5, []⟩ ⟨"a.parquet", 2⟩ (some .insertData)
      = (⟨5, []⟩, false) ∧
    Importer.pg_import_parquet ⟨0, []⟩ ⟨"a.parquet", 2⟩ 1 (some 1) = (⟨1, []⟩, 0) := by
  have h := claim_C1_amended ⟨5, []⟩ ⟨0, []⟩ ⟨"a.parquet", 2⟩ 1 1 .insertData rfl rfl
    (by rw [Importer.iter_batches_one_two]; norm_num)
  rw [Importer.iter_batches_one_two] at h
  norm_num at h
  exact h

/-- C2: after a successful first load of a file, a second load of the
same file is skipped by the ledger gate: it returns
the skip value (`False` for DuckDB, `0` for PostgreSQL) and leaves the
destination state, in particular the row count, unchanged. -/
theorem claim_C2 (dst : Importer.DuckState) (pst : Importer.PGState)
    (f : Importer.ParquetFile) (cs : Nat)
    (fp : Option Importer.DuckStep) (fp2 : Option Nat)
    (hd : dst.is_file_imported f.name = false)
    (hp : pst.is_file_imported f.name = false) (hcs : cs ≠ 0) :
    (Importer.duck_import_parquet dst f none).2 = true ∧
    Importer.duck_import_parquet (Importer.duck_import_parquet dst f none).1 f fp
      = ((Importer.duck_import_parquet dst f none).1, false) ∧
    Importer.pg_import_parquet (Importer.pg_import_parquet pst f cs none).1 f cs fp2
      = ((Importer.pg_import_parquet pst f cs none).1, 0) := by
  refine ⟨?_, ?_, ?_⟩
  · rw [Importer.duck_import_parquet_success dst f hd]
  · rw [Importer.duck_import_parquet_success dst f hd]
    exact Importer.duck_import_parquet_skip _ _ _ (Importer.any_append_self _ _ _)
  · rw [Importer.pg_import_parquet_success pst f cs hp hcs]
    exact Importer.pg_import_parquet_skip _ _ _ _ (Importer.any_append_self _ _ _)

/-- Witness for C2 at a concrete input. -/
theorem claim_C2_witness :
    Importer.duck_import_parquet
        (Importer.duck_import_parquet ⟨0, []⟩ ⟨"a.parquet", 3⟩ none).1
        ⟨"a.parquet", 3⟩ none
      = ((Importer.duck_import_parquet ⟨0, []⟩ ⟨"a.parquet", 3⟩ none).1, false) ∧
    Importer.pg_import_parquet
        (Importer.pg_import_parquet ⟨0, []⟩ ⟨"a.parquet", 3⟩ 2 none).1
        ⟨"a.parquet", 3⟩ 2 none
      = ((Importer.pg_import_parquet ⟨0, []⟩ ⟨"a.parquet", 3⟩ 2 none).1, 0) := by
  have h := claim_C2 ⟨0, []⟩ ⟨0, []⟩ ⟨"a.parquet", 3⟩ 2 none none rfl rfl (by norm_num)
  exact ⟨h.2.1, h.2.2⟩

/-- C3: a successful load of a file with `R` rows returns exactly the
destination row-count delta, that delta is `R`, and the ledger entry
written for the file records exactly `R`. In both embedded loaders the
recorded value is computed literally as `count_after - count_before`. -/
theorem claim_C3 (dst : Importer.DuckState) (pst : Importer.PGState)
    (f : Importer.ParquetFile) (cs : Nat)
    (hd : dst.is_file_imported f.name = false)
    (hp : pst.is_file_imported f.name = false) (hcs : cs ≠ 0) :
    Importer.duck_import_parquet dst f none =
      (⟨dst.yellow_taxi_trips + f.rows,
        dst.import_log ++ [⟨f.name, (f.rows : Int)⟩]⟩, true) ∧
    Importer.pg_import_parquet pst f cs none =
      (⟨pst.yellow_taxi_trips + f.rows,
        pst.import_log ++ [⟨f.name, (f.rows : Int)⟩]⟩, (f.rows : Int)) :=
  ⟨Importer.duck_import_parquet_success dst f hd,
    Importer.pg_import_parquet_success pst f cs hp hcs⟩

/-- Witness for C3 at a concrete input: a 3-row file into a table of 10
rows. -/
theorem claim_C3_witness :
    Importer.duck_import_parquet ⟨10, []⟩ ⟨"a.parquet", 3⟩ none
      = (⟨13, [⟨"a.parquet", 3⟩]⟩, true) ∧
    Importer.pg_import_parquet ⟨10, []⟩ ⟨"a.parquet", 3⟩ 2 none
      = (⟨13, [⟨"a.parquet", 3⟩]⟩, 3) := by
  have h := claim_C3 ⟨10, []⟩ ⟨10, []⟩ ⟨"a.parquet", 3⟩ 2 rfl rfl (by norm_num)
  norm_num at h
  exact h

/-- C8: a `LoadError` on one file does not abort the orchestrators.
For any candidate list split as `pre ++ f :: post` where the loader call
on `f` fails (returns `False` resp. `0`): every candidate — `f` and all
subsequent ones included — is still passed, in order, to the per-file
loader; and the run completes with a summary over all candidates in
which the failed file is counted with zero contribution (it does not
raise the DuckDB imported-file count, adds 0 rows to the PostgreSQL
total) while the contributions of the files before and after it are
preserved: total over `pre ++ f :: post` = total over `pre` + total over
`post` continued from the state the failure left. -/
theorem claim_C8 (dst : Importer.DuckState) (pst : Importer.PGState)
    (pre post : List Importer.ParquetFile) (f : Importer.ParquetFile) (cs : Nat)
    (dplan : String → Option Importer.DuckStep) (pplan : String → Option Nat)
    (hdf : (Importer.duck_import_parquet (Importer.duck_import_all dst pre dplan).1 f
        (dplan f.name)).2 = false)
    (hpf : (Importer.pg_import_parquet (Importer.pg_import_all pst pre cs pplan).1 f cs
        (pplan f.name)).2 = 0) :
    (Importer.duck_import_all dst (pre ++ f :: post) dplan).2.2
        = (pre ++ f :: post).map (fun g => g.name) ∧
    (Importer.pg_import_all pst (pre ++ f :: post) cs pplan).2.2
        = (pre ++ f :: post).map (fun g => g.name) ∧
    (Importer.duck_import_all dst (pre ++ f :: post) dplan).2.1
        = (Importer.duck_import_all dst pre dplan).2.1
          + (Importer.duck_import_all
              (Importer.duck_import_parquet (Importer.duck_import_all dst pre dplan).1 f
                (dplan f.name)).1 post dplan).2.1 ∧
    (Importer.pg_import_all pst (pre ++ f :: post) cs pplan).2.1
        = (Importer.pg_import_all pst pre cs pplan).2.1
          + (Importer.pg_import_all
              (Importer.pg_import_parquet (Importer.pg_import_all pst pre cs pplan).1 f cs
                (pplan f.name)).1 post cs pplan).2.1 := by
  refine ⟨Importer.duck_import_all_processed _ _ _,
    Importer.pg_import_all_processed _ _ _ _, ?_, ?_⟩
  · rw [(Importer.duck_import_all_append pre (f :: post) dst dplan).2.1]
    congr 1
    simp only [Importer.duck_import_all]
    rw [hdf]
    simp
  · rw [(Importer.pg_import_all_append pre (f :: post) pst cs pplan).2.1]
    congr 1
    simp only [Importer.pg_import_all]
    rw [hpf]
    simp

/-- Witness for C8 at a concrete input: file b fails (injected
failure), file c is still passed to the loader afterwards; the summary
totals over both candidates with b counted at zero. -/
theorem claim_C8_witness :
    (Importer.duck_import_all ⟨0, []⟩ [⟨"b.parquet", 2⟩, ⟨"c.parquet", 4⟩]
        (fun n => if n == "b.parquet" then some .insertData else none)).2.2
      = ["b.parquet", "c.parquet"] ∧
    (Importer.pg_import_all ⟨0, []⟩ [⟨"b.parquet", 2⟩, ⟨"c.parquet", 4⟩] 1
        (fun n => if n == "b.parquet" then some 0 else none)).2.2
      = ["b.parquet", "c.parquet"] ∧
    (Importer.duck_import_all ⟨0, []⟩ [⟨"b.parquet", 2⟩, ⟨"c.parquet", 4⟩]
        (fun n => if n == "b.parquet" then some .insertData else none)).2.1
      = (Importer.duck_import_all ⟨0, []⟩ []
          (fun n => if n == "b.parquet" then some .insertData else none)).2.1
        + (Importer.duck_import_all
            (Importer.duck_import_parquet
              (Importer.duck_import_all ⟨0, []⟩ []
                (fun n => if n == "b.parquet" then some .insertData else none)).1
              ⟨"b.parquet", 2⟩ (some .insertData)).1
            [⟨"c.parquet", 4⟩]
            (fun n => if n == "b.parquet" then some .insertData else none)).2.1 := by
  have h := claim_C8 ⟨0, []⟩ ⟨0, []⟩ [] [⟨"c.parquet", 4⟩] ⟨"b.parquet", 2⟩ 1
    (fun n => if n == "b.parquet" then some .insertData else none)
    (fun n => if n == "b.parquet" then some 0 else none)
    (by decide)
    (by
      show (Importer.pg_import_parquet ⟨0, []⟩ ⟨"b.parquet", 2⟩ 1 (some 0)).2 = 0
      rw [Importer.pg_import_parquet_fail ⟨0, []⟩ ⟨"b.parquet", 2⟩ 1 0 (by decide)
        (by rw [Importer.iter_batches_one_two]; norm_num)])
  exact ⟨h.1, h.2.1, h.2.2.1⟩

/-- C9: in the DuckDB backend the ledger insert is inside the same
transaction as the data insert, so any terminating `import_parquet`
call leaves either both the file's rows and its ledger entry committed,
or neither. -/
theorem claim_C9 (st : Importer.DuckState) (f : Importer.ParquetFile)
    (fp : Option Importer.DuckStep) :
    ((Importer.duck_import_parquet st f fp).1.yellow_taxi_trips = st.yellow_taxi_trips ∧
     (Importer.duck_import_parquet st f fp).1.import_log = st.import_log) ∨
    ((Importer.duck_import_parquet st f fp).1.yellow_taxi_trips
        = st.yellow_taxi_trips + f.rows ∧
     (Importer.duck_import_parquet st f fp).1.import_log
        = st.import_log ++ [⟨f.name, (f.rows : Int)⟩]) := by
  cases hb : st.is_file_imported f.name with
  | true =>
    left
    rw [Importer.duck_import_parquet_skip st f fp hb]
    exact ⟨rfl, rfl⟩
  | false =>
    cases fp with
    | none =>
      right
      rw [Importer.duck_import_parquet_success st f hb]
      exact ⟨rfl, rfl⟩
    | some step =>
      left
      rw [Importer.duck_import_parquet_rollback st f step hb]
      exact ⟨rfl, rfl⟩

/-- C10: the PostgreSQL loader returns 0 both for a skipped file (ledger
entry present) and for a failed file (exception caught), so those two
outcomes are indistinguishable by the return value, and a run whose
files are one skip and one failure reports 0 total rows. -/
theorem claim_C10 (st : Importer.PGState) (fA fB : Importer.ParquetFile)
    (cs k : Nat) (plan : String → Option Nat)
    (hA : st.is_file_imported fA.name = true)
    (hB : st.is_file_imported fB.name = false)
    (hplanB : plan fB.name = some k)
    (hk : k < (Importer.iter_batches cs fB.rows).length) :
    Importer.pg_import_parquet st fA cs (plan fA.name) = (st, 0) ∧
    (Importer.pg_import_parquet st fB cs (plan fB.name)).2 = 0 ∧
    (Importer.pg_import_parquet st fA cs (plan fA.name)).2
      = (Importer.pg_import_parquet st fB cs (plan fB.name)).2 ∧
    (Importer.pg_import_all st [fA, fB] cs plan).2.1 = 0 := by
  have hskip := Importer.pg_import_parquet_skip st fA cs (plan fA.name) hA
  have hfail := Importer.pg_import_parquet_fail st fB cs k hB hk
  rw [hplanB]
  refine ⟨hskip, ?_, ?_, ?_⟩
  · rw [hfail]
  · rw [hskip, hfail]
  · simp [Importer.pg_import_all, hskip, hplanB, hfail]

/-- Witness for C10 at a concrete input: file a is already in the
ledger, file b fails at its first chunk. -/
theorem claim_C10_witness :
    Importer.pg_import_parquet ⟨5, [⟨"a.parquet", 5⟩]⟩ ⟨"a.parquet", 3⟩ 1 (some 0)
      = (⟨5, [⟨"a.parquet", 5⟩]⟩, 0) ∧
    (Importer.pg_import_parquet ⟨5, [⟨"a.parquet", 5⟩]⟩ ⟨"b.parquet", 2⟩ 1 (some 0)).2 = 0 ∧
    (Importer.pg_import_all ⟨5, [⟨"a.parquet", 5⟩]⟩
        [⟨"a.parquet", 3⟩, ⟨"b.parquet", 2⟩] 1 (fun _ => some 0)).2.1 = 0 := by
  have h := claim_C10 ⟨5, [⟨"a.parquet", 5⟩]⟩ ⟨"a.parquet", 3⟩ ⟨"b.parquet", 2⟩ 1 0
    (fun _ => some 0) rfl rfl rfl
    (by rw [Importer.iter_batches_one_two]; norm_num)
  exact ⟨h.1, h.2.1, h.2.2.2⟩

/-- C7: the destination table created from the first parquet file
depends only on that file's column schema, never on its row data: two
files with the same columns and dtypes but arbitrary different rows
yield the same created table, and table creation inserts no rows. -/
theorem claim_C7 (ex : List String) (p1 p2 : Schema.ParquetData)
    (h : p1.columns = p2.columns) :
    Schema.create_table_from_first_parquet ex p1
      = Schema.create_table_from_first_parquet ex p2 ∧
    (∀ t rows, Schema.create_table_from_first_parquet ex p1 = some (t, rows) →
      rows = []) := by
  constructor
  · unfold Schema.create_table_from_first_parquet
    split
    · rfl
    · simp [Schema.read_parquet, Schema.DataFrame.head, Schema.to_sql, h]
  · intro t rows hcr
    unfold Schema.create_table_from_first_parquet at hcr
    split at hcr
    · exact absurd hcr (by simp)
    · simp [Schema.read_parquet, Schema.DataFrame.head, Schema.to_sql] at hcr
      exact hcr.2

/-- Witness for C7 at a concrete input: two one-column files with
different row data produce the same table. -/
theorem claim_C7_witness :
    Schema.create_table_from_first_parquet []
        ⟨[("VendorID", .int64)], [["1"], ["2"]]⟩
      = Schema.create_table_from_first_parquet []
        ⟨[("VendorID", .int64)], [["99"]]⟩ :=
  (claim_C7 [] ⟨[("VendorID", .int64)], [["1"], ["2"]]⟩
    ⟨[("VendorID", .int64)], [["99"]]⟩ rfl).1

/-- C5: for any month outside 1..12, path building, URL building and
`download_month` all fail with the `ValueError` raised by
`_validate_month`, before any network call (0 GET requests) and with the
filesystem state unchanged. -/
theorem claim_C5 (year month : Int) (base : ℚ) (N : Nat) (body : List Download.Chunk)
    (sched : List Download.AttemptOutcome) (s : Download.FsState)
    (h : ¬ (1 ≤ month ∧ month ≤ 12)) :
    Download.get_file_path year month
      = .error ("month must be in 1..12, got " ++ toString month) ∧
    Download.build_url year month
      = .error ("month must be in 1..12, got " ++ toString month) ∧
    Download.download_month month base N body sched s
      = ⟨.error ("month must be in 1..12, got " ++ toString month), [], s, 0, []⟩ := by
  have hval : Download.validate_month month
      = .error ("month must be in 1..12, got " ++ toString month) := by
    simp [Download.validate_month, h]
  refine ⟨?_, ?_, ?_⟩
  · simp [Download.get_file_path, hval, Except.map]
  · simp [Download.build_url, hval, Except.map]
  · simp [Download.download_month, hval]

/-- Witness for C5 at the concrete month 13. -/
theorem claim_C5_witness :
    Download.download_month 13 (3/2) 3 [] [] ⟨none, none⟩
      = ⟨.error ("month must be in 1..12, got " ++ toString (13 : Int)),
          [], ⟨none, none⟩, 0, []⟩ :=
  (claim_C5 2025 13 (3/2) 3 [] [] ⟨none, none⟩ (by omega)).2.2

/-- C4: in every state reached during `download_month`, interruptions
included, the canonical final path holds either its initial content or
the complete body — never a partial body (all transfer writes go to the
temporary path); a failed run leaves the final path untouched and no
temp file; the final path gains the complete body only through the
rename after a fully successful transfer. -/
theorem claim_C4 (month : Int) (base : ℚ) (N : Nat) (body : List Download.Chunk)
    (sched : List Download.AttemptOutcome) (s : Download.FsState) :
    (∀ st ∈ (Download.download_month month base N body sched s).trace,
        st.finalContent = s.finalContent ∨ st.finalContent = some body) ∧
    ((Download.download_month month base N body sched s).result = .ok false →
        (Download.download_month month base N body sched s).state.finalContent
          = s.finalContent ∧
        (Download.download_month month base N body sched s).state.tmpContent = none) ∧
    (s.finalContent = none →
        (Download.download_month month base N body sched s).result = .ok true →
        (Download.download_month month base N body sched s).state.finalContent
          = some body ∧
        (Download.download_month month base N body sched s).state.tmpContent = none) := by
  by_cases hm : 1 ≤ month ∧ month ≤ 12
  · have hval : Download.validate_month month = .ok () := by
      simp [Download.validate_month, hm]
    by_cases hf : s.finalContent.isSome
    · refine ⟨?_, ?_, ?_⟩ <;> simp only [Download.download_month, hval, hf, if_true]
      · intro st hst
        simp only [List.mem_singleton] at hst
        subst hst
        exact Or.inl rfl
      · intro hcon
        simp at hcon
      · intro h1
        rw [h1] at hf
        simp at hf
    · have hf2 : s.finalContent.isSome = false := by
        simpa using hf
      have hr := Download.retryLoop_finalContent base body (sched.take N) 1 s
      by_cases hs : (Download.retryLoop base body (sched.take N) 1 s).success = true
      · have htmp := Download.retryLoop_success_tmp base body (sched.take N) 1 s hs
        refine ⟨?_, ?_, ?_⟩ <;>
          simp only [Download.download_month, Download.download_with_retries, hval,
            hf2, Bool.false_eq_true, if_false, hs, if_true]
        · intro st hst
          simp only [List.mem_append, List.mem_singleton] at hst
          rcases hst with hmem | hlast
          · exact Or.inl (hr.2 st hmem)
          · subst hlast
            exact Or.inr htmp
        · intro hcon
          simp at hcon
        · intro _ _
          exact ⟨htmp, by trivial⟩
      · have hs2 : (Download.retryLoop base body (sched.take N) 1 s).success = false := by
          simpa using hs
        refine ⟨?_, ?_, ?_⟩ <;>
          simp only [Download.download_month, Download.download_with_retries, hval,
            hf2, Bool.false_eq_true, if_false, hs2]
        · intro st hst
          simp only [List.mem_append, List.mem_singleton] at hst
          rcases hst with hmem | hlast
          · exact Or.inl (hr.2 st hmem)
          · subst hlast
            exact Or.inl hr.1
        · intro _
          exact ⟨hr.1, by trivial⟩
        · intro _ hcon
          simp at hcon
  · have hval : Download.validate_month month
        = .error ("month must be in 1..12, got " ++ toString month) := by
      simp [Download.validate_month, hm]
    refine ⟨?_, ?_, ?_⟩ <;> simp only [Download.download_month, hval]
    · intro st hst
      simp at hst
    · intro hcon
      simp at hcon
    · intro _ hcon
      simp at hcon

/-- Witness for C4 at a concrete input: a successful single-attempt
download of a 2-chunk body publishes the complete body. -/
theorem claim_C4_witness :
    (Download.download_month 1 (3/2) 3 [7, 7] [.ok] ⟨none, none⟩).state.finalContent
        = some [7, 7] ∧
    (Download.download_month 1 (3/2) 3 [7, 7] [.ok] ⟨none, none⟩).state.tmpContent
        = none :=
  (claim_C4 1 (3/2) 3 [7, 7] [.ok] ⟨none, none⟩).2.2 rfl rfl

/-- C6: the claim states a backoff wait of `base ^ (attempt - 1)`
seconds for each attempt with attempt ranging over [1, N]. False: with
`MAX_RETRIES = 3` and every attempt failing with a transfer error, the
loop sleeps only twice — `[base^0, base^1]` — because no sleep follows
the final attempt; the claimed list `[base^0, base^1, base^2]` has three
entries. -/
theorem claim_C6_counterexample :
    (Download.download_with_retries (3/2) 3 [7]
        (List.replicate 3 (.interrupted 0)) ⟨none, none⟩).sleeps = [1, 3/2] ∧
    ([1, 3/2] : List ℚ) ≠ [(3/2 : ℚ) ^ 0, (3/2 : ℚ) ^ 1, (3/2 : ℚ) ^ 2] := by
  constructor
  · have htake : (List.replicate 3 (Download.AttemptOutcome.interrupted 0)).take 3
        = List.replicate 3 (Download.AttemptOutcome.interrupted 0) := by
      simp [List.take_replicate]
    have h := Download.retryLoop_replicate (3/2) [7] 0 2 1 ⟨none, none⟩ le_rfl
    simp only [Download.download_with_retries, htake]
    rw [h.2.2.2]
    norm_num [List.range_succ]
  · intro hcon
    have hlen := congrArg List.length hcon
    simp at hlen

/-- C6 (amended): on a sequence of N transfer errors the fetcher makes
exactly N attempts, deletes the partial temporary file on each error
(the loop's state after every failed attempt, and at the end, has no
temp file), waits `base ^ (attempt - 1)` seconds after each failed
attempt except the last (attempt ∈ [1, N-1]), and reports failure only
after all N attempts have failed. -/
theorem claim_C6_amended (base : ℚ) (N : Nat) (body : List Download.Chunk) (k : Nat)
    (s : Download.FsState) (hN : 1 ≤ N) :
    (Download.download_with_retries base N body
        (List.replicate N (.interrupted k)) s).success = false ∧
    (Download.download_with_retries base N body
        (List.replicate N (.interrupted k)) s).attemptsUsed = N ∧
    (Download.download_with_retries base N body
        (List.replicate N (.interrupted k)) s).state
      = { s with tmpContent := none } ∧
    (Download.download_with_retries base N body
        (List.replicate N (.interrupted k)) s).sleeps
      = (List.range (N - 1)).map (fun i => base ^ i) := by
  obtain ⟨n, rfl⟩ : ∃ n, N = n + 1 := ⟨N - 1, by omega⟩
  have htake : (List.replicate (n + 1) (Download.AttemptOutcome.interrupted k)).take (n + 1)
      = List.replicate (n + 1) (Download.AttemptOutcome.interrupted k) := by
    simp [List.take_replicate]
  have h := Download.retryLoop_replicate base body k n 1 s (by omega)
  simp only [Download.download_with_retries, htake]
  refine ⟨h.1, h.2.1, h.2.2.1, ?_⟩
  rw [h.2.2.2]
  simp

/-- Witness for C6 (amended) at a concrete input: N = 2 failing
attempts, one backoff sleep. -/
theorem claim_C6_witness :
    (Download.download_with_retries (3/2) 2 [5]
        (List.replicate 2 (.interrupted 0)) ⟨none, none⟩).success = false ∧
    (Download.download_with_retries (3/2) 2 [5]
        (List.replicate 2 (.interrupted 0)) ⟨none, none⟩).attemptsUsed = 2 ∧
    (Download.download_with_retries (3/2) 2 [5]
        (List.replicate 2 (.interrupted 0)) ⟨none, none⟩).state = ⟨none, none⟩ ∧
    (Download.download_with_retries (3/2) 2 [5]
        (List.replicate 2 (.interrupted 0)) ⟨none, none⟩).sleeps
      = (List.range 1).map (fun i => (3/2 : ℚ) ^ i) :=
  claim_C6_amended (3/2) 2 [5] 0 ⟨none, none⟩ (by norm_num)
